import Mathlib

/-!
# Verification of the `RuntimeLoader` singleton (rive-wasm, `src/js/src/runtime-loader/RuntimeLoader.ts`)

A shallow embedding of the WASM runtime loader.  The loader's static class
state becomes an explicit `LoaderState` record threaded through the
operations; the asynchronous resolution of the module-initialization promise
(`rc.default({...}).then(...).catch(...)`) becomes two explicit events
(`resolveSuccess` / `resolveFailure`) applied to a state, matching the
single-threaded cooperative scheduling of the JS runtime: every handler runs
atomically to completion.

Callbacks (`RuntimeCallback`) are modelled as trees: a callback carries an
identifier and the list of callbacks it re-entrantly registers through
`getInstance` when it is invoked.  Invoking a callback records the pair
`(identifier, handle)` in an observation trace.  The runtime handle
(`rc.RiveCanvas`) is opaque to the loader, so it is modelled as a `Nat`.

Calls to the module-initialization entry point `rc.default` are recorded in
`initCalls` as the string that the supplied `locateFile` function resolves to
at the moment of the call (the code passes `locateFile: () => RuntimeLoader.wasmURL`).
`console.warn` / `console.error` output is recorded in `warns` / `errors`.

JavaScript `String.prototype.toLowerCase` is modelled by `lowerCase`, the
character-wise lowercase map; the two agree on the ASCII strings that occur
in the URLs involved.
-/

namespace RuntimeLoader

/-- A `RuntimeCallback`: an observable identifier together with the list of
callbacks it re-entrantly passes to `getInstance` when it is invoked. -/
inductive Cb where
  | mk (id : Nat) (subs : List Cb)
deriving Repr

/-- The identifier of a callback. -/
def Cb.id : Cb → Nat
  | .mk i _ => i

/-- The callbacks a callback re-entrantly registers when invoked. -/
def Cb.subs : Cb → List Cb
  | .mk _ s => s

/-- The static state of the `RuntimeLoader` class, plus observation fields
(`initCalls`, `trace`, `warns`, `errors`) recording externally visible
effects. -/
structure LoaderState where
  /-- `RuntimeLoader.runtime`: the loaded runtime instance, `none` while unset. -/
  runtime : Option Nat
  /-- `RuntimeLoader.isLoading`: flag that loading has started/completed. -/
  isLoading : Bool
  /-- `RuntimeLoader.callBackQueue`: callbacks waiting for the runtime. -/
  callBackQueue : List Cb
  /-- `RuntimeLoader.wasmURL`: current URL of the WASM file. -/
  wasmURL : String
  /-- Observation: one entry per invocation of the module-initialization entry
  point `rc.default`, recording the URL its `locateFile` resolves to. -/
  initCalls : List String
  /-- Observation: one entry `(id, handle)` per callback invocation. -/
  trace : List (Nat × Nat)
  /-- Observation: `console.warn` messages. -/
  warns : List String
  /-- Observation: `console.error` messages. -/
  errors : List String
deriving Repr

/-- The default primary URL: `https://unpkg.com/{name}@{version}/rive.wasm`. -/
def primaryWasmUrl (name version : String) : String :=
  "https://unpkg.com/" ++ name ++ "@" ++ version ++ "/rive.wasm"

/-- The computed fallback URL
`https://cdn.jsdelivr.net/npm/{name}@{version}/rive_fallback.wasm`
(`backupJsdelivrUrl` in `loadRuntime`'s catch handler). -/
def backupJsdelivrUrl (name version : String) : String :=
  "https://cdn.jsdelivr.net/npm/" ++ name ++ "@" ++ version ++ "/rive_fallback.wasm"

/-- The initial static state of the class: no runtime, not loading, empty
queue, `wasmURL` defaulted to the unpkg primary URL. -/
def initialState (name version : String) : LoaderState :=
  { runtime := none
    isLoading := false
    callBackQueue := []
    wasmURL := primaryWasmUrl name version
    initCalls := []
    trace := []
    warns := []
    errors := [] }

/-- The `locateFile` function passed to the initialization entry point:
`locateFile: () => RuntimeLoader.wasmURL`. -/
def locateFile (s : LoaderState) : String :=
  s.wasmURL

/-- `RuntimeLoader.setWasmUrl(url)`: `RuntimeLoader.wasmURL = url`. -/
def setWasmUrl (url : String) (s : LoaderState) : LoaderState :=
  { s with wasmURL := url }

/-- The synchronous part of `RuntimeLoader.loadRuntime()`: the call
`rc.default({ locateFile: () => RuntimeLoader.wasmURL })`, which starts a
load attempt.  The promise settlement is modelled separately by
`resolveSuccess` / `resolveFailure`. -/
def loadRuntimeInit (s : LoaderState) : LoaderState :=
  { s with initCalls := s.initCalls ++ [locateFile s] }

/-- The warning issued before retrying with the jsdelivr backup. -/
def fallbackWarnMsg (url : String) : String :=
  "Failed to load WASM from " ++ url ++ ", trying jsdelivr as a backup"

/-- The error message reported when the fallback also fails. -/
def terminalErrorMsg : String :=
  "Could not load Rive WASM file from unpkg or jsdelivr"

/-- JavaScript `String.prototype.toLowerCase`, modelled as the character-wise
lowercase map (the strings involved are ASCII). -/
def lowerCase (s : String) : String :=
  ⟨s.data.map Char.toLower⟩

mutual

/-- `RuntimeLoader.getInstance(callback)`:
if `!isLoading`, set `isLoading = true` and call `loadRuntime()` (which
invokes the initialization entry point); then, if `!runtime`, push the
callback onto `callBackQueue`, else invoke `callback(runtime)`. -/
def getInstanceM (s : LoaderState) (cb : Cb) : LoaderState :=
  let s1 := if s.isLoading then s else loadRuntimeInit { s with isLoading := true }
  match s1.runtime with
  | none => { s1 with callBackQueue := s1.callBackQueue ++ [cb] }
  | some r => invoke s1 cb r
termination_by (2 * sizeOf cb + 1 : Nat)

/-- Invoking a callback with a handle: record the invocation, then perform the
callback's re-entrant `getInstance` registrations in order. -/
def invoke (s : LoaderState) (cb : Cb) (r : Nat) : LoaderState :=
  match cb with
  | .mk i subs => getInstanceList { s with trace := s.trace ++ [(i, r)] } subs

termination_by (2 * sizeOf cb : Nat)

/-- Perform a list of `getInstance` calls in order. -/
def getInstanceList (s : LoaderState) (cbs : List Cb) : LoaderState :=
  match cbs with
  | [] => s
  | c :: rest => getInstanceList (getInstanceM s c) rest
termination_by (2 * sizeOf cbs : Nat)

end

/-- The drain loop of `loadRuntime`'s success handler:
`while (callBackQueue.length > 0) { callBackQueue.shift()?.(runtime) }`.
The loop re-reads `runtime` and re-checks the queue each iteration; the fuel
argument bounds the iteration count (the handler runs it with fuel equal to
the queue length, which `drain_ready` below proves is exactly enough, since
the queue cannot grow while the runtime handle is set). -/
def drain : Nat → LoaderState → LoaderState
  | 0, s => s
  | fuel + 1, s =>
    match s.callBackQueue with
    | [] => s
    | cb :: rest =>
      match s.runtime with
      | none => s
      | some r => drain fuel (invoke { s with callBackQueue := rest } cb r)

/-- The success handler of `loadRuntime`:
`RuntimeLoader.runtime = rive;` followed by the drain loop. -/
def resolveSuccess (hdl : Nat) (s : LoaderState) : LoaderState :=
  let s1 := { s with runtime := some hdl }
  drain s1.callBackQueue.length s1

/-- The catch handler of `loadRuntime`: compute the backup URL; if
`wasmURL.toLowerCase() !== backupJsdelivrUrl`, warn, switch the URL via
`setWasmUrl`, and re-run `loadRuntime()`; otherwise report a terminal error. -/
def resolveFailure (name version : String) (s : LoaderState) : LoaderState :=
  let backup := backupJsdelivrUrl name version
  if lowerCase s.wasmURL ≠ backup then
    loadRuntimeInit (setWasmUrl backup
      { s with warns := s.warns ++ [fallbackWarnMsg s.wasmURL] })
  else
    { s with errors := s.errors ++ [terminalErrorMsg] }

/-- `RuntimeLoader.awaitInstance()`: returns
`new Promise(resolve => getInstance(rive => resolve(rive)))`.  The resolving
closure is modelled as a callback with a fresh identifier `p` and no
re-entrant registrations; the promise's resolutions are exactly the
invocations of that callback (see `promiseResolutions`). -/
def awaitInstance (p : Nat) (s : LoaderState) : LoaderState :=
  getInstanceM s (Cb.mk p [])

/-- The values with which the promise created by `awaitInstance` with callback
identifier `p` has been resolved: the handles recorded against `p` in the
invocation trace.  The executor never calls `reject`, so resolutions are the
only settlements the promise can undergo. -/
def promiseResolutions (p : Nat) (s : LoaderState) : List Nat :=
  (s.trace.filter (fun pr => pr.1 == p)).map Prod.snd

/-- External events driving the loader: a public `getInstance` call, the
settlement of a pending initialization promise (success or failure), or a
public `setWasmUrl` call. -/
inductive Event where
  | get (cb : Cb)
  | success (hdl : Nat)
  | failure (name version : String)
  | setUrl (u : String)
deriving Repr

/-- One event applied to a state. -/
def step (e : Event) (s : LoaderState) : LoaderState :=
  match e with
  | .get cb => getInstanceM s cb
  | .success hdl => resolveSuccess hdl s
  | .failure n v => resolveFailure n v s
  | .setUrl u => setWasmUrl u s

/-- A sequence of events applied left to right. -/
def run (evs : List Event) (s : LoaderState) : LoaderState :=
  evs.foldl (fun s e => step e s) s

mutual

/-- The trace produced by invoking a callback with handle `r` while the
runtime is ready: its own entry followed by the entries of its re-entrant
registrations, invoked synchronously in order. -/
def cbTrace (r : Nat) : Cb → List (Nat × Nat)
  | .mk i subs => (i, r) :: cbTraceList r subs

/-- `cbTrace` over a list of callbacks. -/
def cbTraceList (r : Nat) : List Cb → List (Nat × Nat)
  | [] => []
  | c :: rest => cbTrace r c ++ cbTraceList r rest

end

mutual

/-- Occurrences of identifier `p` in a callback tree. -/
def cbCount (p : Nat) : Cb → Nat
  | .mk i subs => (if i = p then 1 else 0) + cbCountList p subs

/-- `cbCount` summed over a list of callbacks. -/
def cbCountList (p : Nat) : List Cb → Nat
  | [] => 0
  | c :: rest => cbCount p c + cbCountList p rest

end

/-- Occurrences of identifier `p` among trace entries. -/
def entryCount (p : Nat) (l : List (Nat × Nat)) : Nat :=
  (l.filter (fun pr => pr.1 == p)).length

/-- Invocations of identifier `p` recorded so far. -/
def traceCount (p : Nat) (s : LoaderState) : Nat :=
  entryCount p s.trace

/-- Occurrences of identifier `p` in the pending callback queue. -/
def queuedCount (p : Nat) (s : LoaderState) : Nat :=
  cbCountList p s.callBackQueue

/-- An event that never mentions callback identifier `p`. -/
def pidFree (p : Nat) : Event → Bool
  | .get cb => cbCount p cb == 0
  | _ => true

/-! ## Basic characterizations of the operations -/

/-- `getInstance` on a state where loading has not started and the runtime is
unset: it sets the flag, invokes the initialization entry point with the
current URL, and queues the callback. -/
theorem getInstanceM_idle_none (s : LoaderState) (cb : Cb)
    (hl : s.isLoading = false) (hr : s.runtime = none) :
    getInstanceM s cb =
      { s with isLoading := true, initCalls := s.initCalls ++ [s.wasmURL],
               callBackQueue := s.callBackQueue ++ [cb] } := by
  unfold getInstanceM
  simp [hl, hr, loadRuntimeInit, locateFile]

/-- `getInstance` while a load is in flight: the callback is queued and
nothing else changes. -/
theorem getInstanceM_loading_none (s : LoaderState) (cb : Cb)
    (hl : s.isLoading = true) (hr : s.runtime = none) :
    getInstanceM s cb = { s with callBackQueue := s.callBackQueue ++ [cb] } := by
  unfold getInstanceM
  simp [hl, hr]

mutual

/-- `getInstance` on a ready runtime: the callback (and, synchronously, its
re-entrant registrations) is invoked immediately; only the trace changes. -/
theorem getInstanceM_ready (s : LoaderState) (cb : Cb) (r : Nat)
    (hr : s.runtime = some r) (hl : s.isLoading = true) :
    getInstanceM s cb = { s with trace := s.trace ++ cbTrace r cb } := by
  have h2 : getInstanceM s cb = invoke s cb r := by
    unfold getInstanceM
    simp [hl, hr]
  rw [h2]
  exact invoke_ready s cb r hr hl
termination_by (2 * sizeOf cb + 1 : Nat)

/-- Invoking a callback while the runtime is ready changes only the trace. -/
theorem invoke_ready (s : LoaderState) (cb : Cb) (r : Nat)
    (hr : s.runtime = some r) (hl : s.isLoading = true) :
    invoke s cb r = { s with trace := s.trace ++ cbTrace r cb } := by
  match cb with
  | .mk i subs =>
    unfold invoke
    rw [getInstanceList_ready { s with trace := s.trace ++ [(i, r)] } subs r hr hl]
    simp [cbTrace]
termination_by (2 * sizeOf cb : Nat)

/-- A list of `getInstance` calls on a ready runtime changes only the trace. -/
theorem getInstanceList_ready (s : LoaderState) (cbs : List Cb) (r : Nat)
    (hr : s.runtime = some r) (hl : s.isLoading = true) :
    getInstanceList s cbs = { s with trace := s.trace ++ cbTraceList r cbs } := by
  match cbs with
  | [] =>
    unfold getInstanceList
    simp [cbTraceList]
  | c :: rest =>
    unfold getInstanceList
    rw [getInstanceM_ready s c r hr hl]
    rw [getInstanceList_ready { s with trace := s.trace ++ cbTrace r c } rest r hr hl]
    simp [cbTraceList]
termination_by (2 * sizeOf cbs : Nat)

end

/-- The drain loop, run with fuel equal to the queue length while the runtime
is set, empties the queue and invokes every queued callback in order. -/
theorem drain_ready (r : Nat) : ∀ (n : Nat) (s : LoaderState),
    s.runtime = some r → s.isLoading = true → s.callBackQueue.length = n →
    drain n s =
      { s with callBackQueue := [],
               trace := s.trace ++ cbTraceList r s.callBackQueue } := by
  intro n
  induction n with
  | zero =>
    intro s hr hl hlen
    obtain ⟨rt, il, q, w, ic, tr, ws, es⟩ := s
    simp only at hr hl hlen ⊢
    have hq : q = [] := List.length_eq_zero.mp hlen
    subst hq
    simp [drain, cbTraceList]
  | succ n ih =>
    intro s hr hl hlen
    obtain ⟨rt, il, q, w, ic, tr, ws, es⟩ := s
    simp only at hr hl hlen ⊢
    subst hr
    subst hl
    match q with
    | [] => simp at hlen
    | cb :: rest =>
      show drain (n + 1) ⟨some r, true, cb :: rest, w, ic, tr, ws, es⟩ = _
      rw [drain]
      simp only
      rw [invoke_ready ⟨some r, true, rest, w, ic, tr, ws, es⟩ cb r rfl rfl]
      rw [ih { runtime := some r, isLoading := true, callBackQueue := rest,
               wasmURL := w, initCalls := ic, trace := tr ++ cbTrace r cb,
               warns := ws, errors := es } rfl rfl (by simpa using hlen)]
      simp [cbTraceList]

/-- The success handler: the handle is stored, the queue is emptied, and every
queued callback is invoked in order with the stored handle. -/
theorem resolveSuccess_char (hdl : Nat) (s : LoaderState)
    (hl : s.isLoading = true) :
    resolveSuccess hdl s =
      { s with runtime := some hdl, callBackQueue := [],
               trace := s.trace ++ cbTraceList hdl s.callBackQueue } := by
  unfold resolveSuccess
  rw [drain_ready hdl s.callBackQueue.length { s with runtime := some hdl } rfl hl rfl]


/-! ## Helper lemmas and claim theorems -/

theorem run_nil (s : LoaderState) : run [] s = s := rfl

theorem run_cons (e : Event) (evs : List Event) (s : LoaderState) :
    run (e :: evs) s = run evs (step e s) := rfl

theorem step_get (cb : Cb) (s : LoaderState) : step (Event.get cb) s = getInstanceM s cb := rfl

/-- The failure handler when the lowercased current URL differs from the
backup URL: warn, switch to the backup, start a new load attempt. -/
theorem resolveFailure_retry (name version : String) (s : LoaderState)
    (h : lowerCase s.wasmURL ≠ backupJsdelivrUrl name version) :
    resolveFailure name version s =
      { s with warns := s.warns ++ [fallbackWarnMsg s.wasmURL],
               wasmURL := backupJsdelivrUrl name version,
               initCalls := s.initCalls ++ [backupJsdelivrUrl name version] } := by
  unfold resolveFailure
  simp [h, loadRuntimeInit, setWasmUrl, locateFile]

/-- The failure handler when the lowercased current URL equals the backup URL:
only the terminal error is reported. -/
theorem resolveFailure_terminal (name version : String) (s : LoaderState)
    (h : lowerCase s.wasmURL = backupJsdelivrUrl name version) :
    resolveFailure name version s = { s with errors := s.errors ++ [terminalErrorMsg] } := by
  unfold resolveFailure
  simp [h]

/-- `getInstance` calls while a load is in flight only append to the queue. -/
theorem run_gets_inflight (cbs : List Cb) : ∀ (s : LoaderState),
    s.isLoading = true → s.runtime = none →
    run (cbs.map Event.get) s = { s with callBackQueue := s.callBackQueue ++ cbs } := by
  induction cbs with
  | nil => intro s hl hr; simp [run]
  | cons c rest ih =>
    intro s hl hr
    rw [show (c :: rest).map Event.get = Event.get c :: rest.map Event.get from rfl]
    rw [run_cons, step_get, getInstanceM_loading_none s c hl hr]
    rw [ih { s with callBackQueue := s.callBackQueue ++ [c] } hl hr]
    simp



theorem cbTraceList_simple (hdl : Nat) (ids : List Nat) :
    cbTraceList hdl (ids.map (fun i => Cb.mk i [])) = ids.map (fun i => (i, hdl)) := by
  induction ids with
  | nil => simp [cbTraceList]
  | cons i rest ih => simp [cbTraceList, cbTrace, ih]

/-- Claim C1 (single-flight): for any nonempty sequence of `getInstance`
calls issued before any load completes, the module-initialization entry point
is invoked exactly once, with the primary URL — not once per call; and any
`getInstance` call made while a load is in flight starts no new load
attempt. -/
theorem single_flight (cbs : List Cb) (s : LoaderState) (hne : cbs ≠ [])
    (hl : s.isLoading = false) (hr : s.runtime = none) (hi : s.initCalls = []) :
    (run (cbs.map Event.get) s).initCalls = [s.wasmURL] ∧
    (∀ (s2 : LoaderState) (cb : Cb), s2.isLoading = true → s2.runtime = none →
      (getInstanceM s2 cb).initCalls = s2.initCalls) := by
  constructor
  · match cbs with
    | [] => exact absurd rfl hne
    | c :: rest =>
      rw [show (c :: rest).map Event.get = Event.get c :: rest.map Event.get from rfl]
      rw [run_cons, step_get, getInstanceM_idle_none s c hl hr]
      rw [run_gets_inflight rest
          { s with isLoading := true, initCalls := s.initCalls ++ [s.wasmURL],
                   callBackQueue := s.callBackQueue ++ [c] } rfl hr]
      simp [hi]
  · intro s2 cb h2 h3
    rw [getInstanceM_loading_none s2 cb h2 h3]

theorem single_flight_witness :
    (run ([Cb.mk 1 [], Cb.mk 2 [], Cb.mk 3 []].map Event.get)
        (initialState "rive" "1.0.0")).initCalls = [primaryWasmUrl "rive" "1.0.0"] :=
  (single_flight [Cb.mk 1 [], Cb.mk 2 [], Cb.mk 3 []] (initialState "rive" "1.0.0")
    (by simp) rfl rfl rfl).1

/-- Claim C2 (FIFO exactly-once delivery): when the pending load succeeds,
the queue is left empty — every queued callback, including any appended
during the drain, has been drained by the same loop — and the invocation
trace extends by exactly the queued callbacks in registration order; in
particular, simple callbacks registered as `C1, ..., Cn` are each invoked
exactly once, in that order, all with the identical runtime handle. -/
theorem fifo_delivery (s : LoaderState) (hdl : Nat) (hl : s.isLoading = true) :
    (resolveSuccess hdl s).callBackQueue = [] ∧
    (resolveSuccess hdl s).trace = s.trace ++ cbTraceList hdl s.callBackQueue ∧
    (∀ ids : List Nat, s.callBackQueue = ids.map (fun i => Cb.mk i []) →
      (resolveSuccess hdl s).trace = s.trace ++ ids.map (fun i => (i, hdl))) := by
  rw [resolveSuccess_char hdl s hl]
  refine ⟨rfl, rfl, ?_⟩
  intro ids hq
  rw [hq, cbTraceList_simple]

theorem fifo_delivery_witness :
    (resolveSuccess 7 ⟨none, true, [Cb.mk 1 [], Cb.mk 2 [], Cb.mk 3 []],
        "u", ["u"], [], [], []⟩).trace = [] ++ [1, 2, 3].map (fun i => (i, 7)) :=
  (fifo_delivery _ 7 rfl).2.2 [1, 2, 3] rfl

/-- Claim C3 (fallback-once termination): if the load against the primary
URL fails, the loader switches the source URL to the computed jsdelivr
fallback URL and starts exactly one retry against it; if that retry also
fails, no third initialization attempt occurs and the sequence terminates
with an error-level report.  The two hypotheses record that the actual
package metadata produces a primary URL whose lowercase form differs from
the fallback URL and an all-lowercase fallback URL. -/
theorem fallback_once (name version : String) (s : LoaderState)
    (hw : s.wasmURL = primaryWasmUrl name version)
    (h1 : lowerCase (primaryWasmUrl name version) ≠ backupJsdelivrUrl name version)
    (h2 : lowerCase (backupJsdelivrUrl name version) = backupJsdelivrUrl name version) :
    (resolveFailure name version s).wasmURL = backupJsdelivrUrl name version ∧
    (resolveFailure name version s).initCalls = s.initCalls ++ [backupJsdelivrUrl name version] ∧
    (resolveFailure name version s).errors = s.errors ∧
    (resolveFailure name version (resolveFailure name version s)).initCalls =
      (resolveFailure name version s).initCalls ∧
    (resolveFailure name version (resolveFailure name version s)).wasmURL =
      (resolveFailure name version s).wasmURL ∧
    (resolveFailure name version (resolveFailure name version s)).errors =
      s.errors ++ [terminalErrorMsg] := by
  have e1 := resolveFailure_retry name version s (by rw [hw]; exact h1)
  rw [e1]
  have e2 := resolveFailure_terminal name version
    { s with warns := s.warns ++ [fallbackWarnMsg s.wasmURL],
             wasmURL := backupJsdelivrUrl name version,
             initCalls := s.initCalls ++ [backupJsdelivrUrl name version] } h2
  rw [e2]
  exact ⟨rfl, rfl, rfl, rfl, rfl, rfl⟩

theorem fallback_once_witness :
    (resolveFailure "rive" "1.0.0" (resolveFailure "rive" "1.0.0"
        (initialState "rive" "1.0.0"))).errors = [terminalErrorMsg] :=
  (fallback_once "rive" "1.0.0" (initialState "rive" "1.0.0")
    rfl (by decide) (by decide)).2.2.2.2.2



/-- Claim C4, counterexample: the failure-path check does NOT compare the
lowercased forms of both sides.  The source URL
`https://cdn.jsdelivr.net/npm/a@1/rive_fallback.wasm` and the computed
fallback URL for package `A` version `1` differ only in letter case, yet the
check treats them as different: the failure handler retries (recording a new
initialization call) instead of reporting the terminal error. -/
theorem fallback_compare_cex :
    lowerCase "https://cdn.jsdelivr.net/npm/a@1/rive_fallback.wasm" =
      lowerCase (backupJsdelivrUrl "A" "1") ∧
    "https://cdn.jsdelivr.net/npm/a@1/rive_fallback.wasm" ≠ backupJsdelivrUrl "A" "1" ∧
    (resolveFailure "A" "1" { initialState "A" "1" with
        wasmURL := "https://cdn.jsdelivr.net/npm/a@1/rive_fallback.wasm" }).errors = [] ∧
    (resolveFailure "A" "1" { initialState "A" "1" with
        wasmURL := "https://cdn.jsdelivr.net/npm/a@1/rive_fallback.wasm" }).initCalls =
      [backupJsdelivrUrl "A" "1"] := by
  refine ⟨by decide, by decide, ?_, ?_⟩ <;>
    · rw [resolveFailure_retry "A" "1" _ (by decide)]
      rfl

/-- Claim C4, amended: the loop-termination check lowercases only the
current source URL and compares it verbatim to the computed fallback URL
(`wasmURL.toLowerCase() !== backupJsdelivrUrl`).  Two URLs differing only in
letter case are therefore treated as equal exactly when the fallback URL
itself contains no uppercase letters — which holds for the default
all-lowercase fallback URL. -/
theorem fallback_compare_amended (name version : String) (s : LoaderState) :
    ((resolveFailure name version s).initCalls = s.initCalls ↔
      lowerCase s.wasmURL = backupJsdelivrUrl name version) ∧
    (lowerCase (backupJsdelivrUrl name version) = backupJsdelivrUrl name version →
      lowerCase s.wasmURL = lowerCase (backupJsdelivrUrl name version) →
      (resolveFailure name version s).initCalls = s.initCalls ∧
      (resolveFailure name version s).errors = s.errors ++ [terminalErrorMsg]) := by
  by_cases h : lowerCase s.wasmURL = backupJsdelivrUrl name version
  · rw [resolveFailure_terminal name version s h]
    exact ⟨by simp [h], fun _ _ => ⟨rfl, rfl⟩⟩
  · rw [resolveFailure_retry name version s h]
    constructor
    · simp [h]
    · intro hfb heq
      exact absurd (heq.trans hfb) h

theorem fallback_compare_amended_witness :
    (resolveFailure "rive" "1" { initialState "rive" "1" with
        wasmURL := "HTTPS://cdn.jsdelivr.net/npm/rive@1/rive_fallback.wasm" }).errors =
      [terminalErrorMsg] :=
  ((fallback_compare_amended "rive" "1" { initialState "rive" "1" with
      wasmURL := "HTTPS://cdn.jsdelivr.net/npm/rive@1/rive_fallback.wasm" }).2
    (by decide) (by decide)).2

/-- Claim C5 (post-ready immediacy): once the runtime handle has been
stored by a successful load, every `getInstance` call invokes its callback
synchronously within that same call with the stored handle, and appends
nothing to the callback queue. -/
theorem post_ready_immediate (s : LoaderState) (cb : Cb) (r : Nat)
    (hr : s.runtime = some r) (hl : s.isLoading = true) :
    (getInstanceM s cb).callBackQueue = s.callBackQueue ∧
    (getInstanceM s cb).trace = s.trace ++ cbTrace r cb ∧
    (∀ i, cb = Cb.mk i [] → (getInstanceM s cb).trace = s.trace ++ [(i, r)]) := by
  rw [getInstanceM_ready s cb r hr hl]
  refine ⟨rfl, rfl, ?_⟩
  intro i hi
  subst hi
  simp [cbTrace, cbTraceList]

theorem post_ready_immediate_witness :
    (getInstanceM ⟨some 7, true, [], "u", ["u"], [(0, 7)], [], []⟩ (Cb.mk 1 [])).trace =
      [(0, 7)] ++ [(1, 7)] :=
  (post_ready_immediate ⟨some 7, true, [], "u", ["u"], [(0, 7)], [], []⟩
    (Cb.mk 1 []) 7 rfl rfl).2.2 1 rfl

/-- Claim C7 (frame property of `setWasmUrl`): for every input string,
`setWasmUrl` overwrites only the source URL field, unconditionally; the
runtime handle, loading flag, callback queue, recorded initialization calls
(hence the URL any in-flight load was started with), trace, and logs are all
untouched.  Only a future load attempt observes the new URL. -/
theorem setWasmUrl_frame (u : String) (s : LoaderState) :
    (setWasmUrl u s).wasmURL = u ∧
    (setWasmUrl u s).runtime = s.runtime ∧
    (setWasmUrl u s).isLoading = s.isLoading ∧
    (setWasmUrl u s).callBackQueue = s.callBackQueue ∧
    (setWasmUrl u s).initCalls = s.initCalls ∧
    (setWasmUrl u s).trace = s.trace ∧
    (setWasmUrl u s).warns = s.warns ∧
    (setWasmUrl u s).errors = s.errors ∧
    (loadRuntimeInit (setWasmUrl u s)).initCalls = s.initCalls ++ [u] :=
  ⟨rfl, rfl, rfl, rfl, rfl, rfl, rfl, rfl, rfl⟩

/-- Claim C9 (URL override): calling `setWasmUrl u` before any load
attempt makes the `locateFile` function passed to the initialization entry
point of the subsequent load return exactly `u`: the single recorded
initialization call carries `u`. -/
theorem url_override (name version u : String) (cb : Cb) :
    locateFile (setWasmUrl u (initialState name version)) = u ∧
    (getInstanceM (setWasmUrl u (initialState name version)) cb).initCalls = [u] := by
  refine ⟨rfl, ?_⟩
  rw [getInstanceM_idle_none (setWasmUrl u (initialState name version)) cb rfl rfl]
  rfl

/-- Claim C10 (handle stored before drain): a successful resolution stores
the runtime handle before draining, leaves the handle stored and the queue
empty; and during the drain — the runtime being set — any re-entrant
`getInstance` call takes the synchronous branch, invoking its callback
immediately and appending nothing to the queue. -/
theorem handle_stored_before_drain (s : LoaderState) (hdl : Nat)
    (hl : s.isLoading = true) :
    (resolveSuccess hdl s).runtime = some hdl ∧
    (resolveSuccess hdl s).callBackQueue = [] ∧
    (∀ (s2 : LoaderState) (cb : Cb) (r : Nat), s2.runtime = some r → s2.isLoading = true →
      (getInstanceM s2 cb).callBackQueue = s2.callBackQueue ∧
      getInstanceM s2 cb = { s2 with trace := s2.trace ++ cbTrace r cb }) := by
  rw [resolveSuccess_char hdl s hl]
  refine ⟨rfl, rfl, ?_⟩
  intro s2 cb r h2 h3
  rw [getInstanceM_ready s2 cb r h2 h3]
  exact ⟨rfl, rfl⟩

theorem handle_stored_before_drain_witness :
    (resolveSuccess 7 ⟨none, true, [Cb.mk 1 []], "u", ["u"], [], [], []⟩).runtime = some 7 ∧
    (getInstanceM ⟨some 7, true, [], "u", ["u"], [(1, 7)], [], []⟩
      (Cb.mk 2 [])).callBackQueue = [] :=
  ⟨(handle_stored_before_drain ⟨none, true, [Cb.mk 1 []], "u", ["u"], [], [], []⟩ 7 rfl).1,
   ((handle_stored_before_drain ⟨none, true, [], "u", [], [], [], []⟩ 7 rfl).2.2
      ⟨some 7, true, [], "u", ["u"], [(1, 7)], [], []⟩ (Cb.mk 2 []) 7 rfl rfl).1⟩



/-- No operation ever resets the loading flag once it is `true`. -/
theorem step_isLoading (e : Event) (s : LoaderState) (hl : s.isLoading = true) :
    (step e s).isLoading = true := by
  cases e with
  | get cb =>
    rw [step_get]
    cases hr : s.runtime with
    | none => rw [getInstanceM_loading_none s cb hl hr]; exact hl
    | some r => rw [getInstanceM_ready s cb r hr hl]; exact hl
  | success hdl =>
    rw [show step (Event.success hdl) s = resolveSuccess hdl s from rfl]
    rw [resolveSuccess_char hdl s hl]
    exact hl
  | failure n v =>
    rw [show step (Event.failure n v) s = resolveFailure n v s from rfl]
    by_cases h : lowerCase s.wasmURL = backupJsdelivrUrl n v
    · rw [resolveFailure_terminal n v s h]; exact hl
    · rw [resolveFailure_retry n v s h]; exact hl
  | setUrl u => exact hl

/-- Claim C6 (no automatic retry after failure): no operation ever resets
the `isLoading` flag once it is `true` — including load failure; after a
terminal failure the queued callbacks have not fired and remain queued, no
state other than the error report changes, and every later `getInstance`
call only appends its callback to the queue, firing nothing and starting no
new load attempt. -/
theorem no_automatic_retry :
    (∀ (e : Event) (s : LoaderState), s.isLoading = true → (step e s).isLoading = true) ∧
    (∀ (name version : String) (s : LoaderState),
      lowerCase s.wasmURL = backupJsdelivrUrl name version →
      (resolveFailure name version s).trace = s.trace ∧
      (resolveFailure name version s).callBackQueue = s.callBackQueue ∧
      (resolveFailure name version s).initCalls = s.initCalls ∧
      (resolveFailure name version s).runtime = s.runtime ∧
      (resolveFailure name version s).isLoading = s.isLoading ∧
      (resolveFailure name version s).errors = s.errors ++ [terminalErrorMsg]) ∧
    (∀ (cbs : List Cb) (s : LoaderState), s.isLoading = true → s.runtime = none →
      (run (cbs.map Event.get) s).initCalls = s.initCalls ∧
      (run (cbs.map Event.get) s).trace = s.trace ∧
      (run (cbs.map Event.get) s).callBackQueue = s.callBackQueue ++ cbs) := by
  refine ⟨step_isLoading, ?_, ?_⟩
  · intro name version s h
    rw [resolveFailure_terminal name version s h]
    exact ⟨rfl, rfl, rfl, rfl, rfl, rfl⟩
  · intro cbs s hl hr
    rw [run_gets_inflight cbs s hl hr]
    exact ⟨rfl, rfl, rfl⟩

theorem no_automatic_retry_witness :
    (step (Event.failure "rive" "1")
      ⟨none, true, [Cb.mk 1 []], backupJsdelivrUrl "rive" "1", ["u"], [], [], []⟩).isLoading = true ∧
    (resolveFailure "rive" "1"
      ⟨none, true, [Cb.mk 1 []], backupJsdelivrUrl "rive" "1", ["u"], [], [], []⟩).trace = [] ∧
    (run ([Cb.mk 2 []].map Event.get)
      ⟨none, true, [Cb.mk 1 []], backupJsdelivrUrl "rive" "1", ["u"], [], [], []⟩).callBackQueue =
      [Cb.mk 1 []] ++ [Cb.mk 2 []] :=
  ⟨no_automatic_retry.1 (Event.failure "rive" "1") _ rfl,
   (no_automatic_retry.2.1 "rive" "1"
      ⟨none, true, [Cb.mk 1 []], backupJsdelivrUrl "rive" "1", ["u"], [], [], []⟩ (by decide)).1,
   (no_automatic_retry.2.2 [Cb.mk 2 []]
      ⟨none, true, [Cb.mk 1 []], backupJsdelivrUrl "rive" "1", ["u"], [], [], []⟩ rfl rfl).2.2⟩



theorem cbCountList_append (p : Nat) (a b : List Cb) :
    cbCountList p (a ++ b) = cbCountList p a + cbCountList p b := by
  induction a with
  | nil => simp [cbCountList]
  | cons c rest ih => simp [cbCountList, ih, Nat.add_assoc]

theorem entryCount_append (p : Nat) (a b : List (Nat × Nat)) :
    entryCount p (a ++ b) = entryCount p a + entryCount p b := by
  simp [entryCount, List.filter_append]

theorem entryCount_cons (p i r : Nat) (l : List (Nat × Nat)) :
    entryCount p ((i, r) :: l) = (if i = p then 1 else 0) + entryCount p l := by
  by_cases h : i = p
  · simp [entryCount, List.filter_cons, h]
    omega
  · simp [entryCount, List.filter_cons, h]

mutual

theorem entryCount_cbTrace (p r : Nat) (cb : Cb) :
    entryCount p (cbTrace r cb) = cbCount p cb := by
  match cb with
  | .mk i subs =>
    rw [show cbTrace r (Cb.mk i subs) = (i, r) :: cbTraceList r subs from rfl]
    rw [entryCount_cons, entryCount_cbTraceList p r subs]
    rfl
termination_by sizeOf cb

theorem entryCount_cbTraceList (p r : Nat) (cbs : List Cb) :
    entryCount p (cbTraceList r cbs) = cbCountList p cbs := by
  match cbs with
  | [] => rfl
  | c :: rest =>
    rw [show cbTraceList r (c :: rest) = cbTrace r c ++ cbTraceList r rest from rfl]
    rw [entryCount_append, entryCount_cbTrace p r c, entryCount_cbTraceList p r rest]
    rfl
termination_by sizeOf cbs

end

mutual

theorem cbTrace_snd (r : Nat) (cb : Cb) : ∀ pr ∈ cbTrace r cb, pr.2 = r := by
  match cb with
  | .mk i subs =>
    intro pr hpr
    rw [show cbTrace r (Cb.mk i subs) = (i, r) :: cbTraceList r subs from rfl] at hpr
    rcases List.mem_cons.mp hpr with h | h
    · rw [h]
    · exact cbTraceList_snd r subs pr h
termination_by sizeOf cb

theorem cbTraceList_snd (r : Nat) (cbs : List Cb) : ∀ pr ∈ cbTraceList r cbs, pr.2 = r := by
  match cbs with
  | [] => intro pr hpr; cases hpr
  | c :: rest =>
    intro pr hpr
    rw [show cbTraceList r (c :: rest) = cbTrace r c ++ cbTraceList r rest from rfl] at hpr
    rcases List.mem_append.mp hpr with h | h
    · exact cbTrace_snd r c pr h
    · exact cbTraceList_snd r rest pr h
termination_by sizeOf cbs

end

theorem promiseResolutions_length (p : Nat) (s : LoaderState) :
    (promiseResolutions p s).length = traceCount p s := by
  simp [promiseResolutions, traceCount, entryCount]

theorem promiseResolutions_of_trace_nil (p : Nat) (s : LoaderState) (h : s.trace = []) :
    promiseResolutions p s = [] := by
  simp [promiseResolutions, h]

theorem promiseResolutions_mem (p : Nat) (s : LoaderState) (v : Nat)
    (h : v ∈ promiseResolutions p s) : ∃ pr ∈ s.trace, pr.2 = v := by
  rcases List.mem_map.mp h with ⟨pr, hpr, hv⟩
  exact ⟨pr, (List.mem_filter.mp hpr).1, hv⟩



theorem step_sum (p : Nat) (e : Event) (s : LoaderState)
    (hfree : pidFree p e = true) (hl : s.isLoading = true) :
    traceCount p (step e s) + queuedCount p (step e s) =
      traceCount p s + queuedCount p s := by
  cases e with
  | get cb =>
    have hc : cbCount p cb = 0 := by simpa [pidFree] using hfree
    rw [step_get]
    cases hr : s.runtime with
    | none =>
      rw [getInstanceM_loading_none s cb hl hr]
      show traceCount p s + cbCountList p (s.callBackQueue ++ [cb]) = _
      rw [cbCountList_append]
      show traceCount p s + (queuedCount p s + (cbCount p cb + cbCountList p [])) = _
      rw [hc]
      rfl
    | some r =>
      rw [getInstanceM_ready s cb r hr hl]
      show entryCount p (s.trace ++ cbTrace r cb) + queuedCount p s = _
      rw [entryCount_append, entryCount_cbTrace, hc]
      rfl
  | success hdl =>
    rw [show step (Event.success hdl) s = resolveSuccess hdl s from rfl]
    rw [resolveSuccess_char hdl s hl]
    show entryCount p (s.trace ++ cbTraceList hdl s.callBackQueue) + cbCountList p [] = _
    rw [entryCount_append, entryCount_cbTraceList]
    show traceCount p s + queuedCount p s + 0 = _
    omega
  | failure n v =>
    rw [show step (Event.failure n v) s = resolveFailure n v s from rfl]
    by_cases h : lowerCase s.wasmURL = backupJsdelivrUrl n v
    · rw [resolveFailure_terminal n v s h]; rfl
    · rw [resolveFailure_retry n v s h]; rfl
  | setUrl u => rfl

theorem step_queued_zero (p : Nat) (e : Event) (s : LoaderState)
    (hfree : pidFree p e = true) (hl : s.isLoading = true)
    (hq : queuedCount p s = 0) : queuedCount p (step e s) = 0 := by
  cases e with
  | get cb =>
    have hc : cbCount p cb = 0 := by simpa [pidFree] using hfree
    rw [step_get]
    cases hr : s.runtime with
    | none =>
      rw [getInstanceM_loading_none s cb hl hr]
      show cbCountList p (s.callBackQueue ++ [cb]) = 0
      rw [cbCountList_append]
      simp [cbCountList, hc]
      exact hq
    | some r =>
      rw [getInstanceM_ready s cb r hr hl]
      exact hq
  | success hdl =>
    rw [show step (Event.success hdl) s = resolveSuccess hdl s from rfl]
    rw [resolveSuccess_char hdl s hl]
    rfl
  | failure n v =>
    rw [show step (Event.failure n v) s = resolveFailure n v s from rfl]
    by_cases h : lowerCase s.wasmURL = backupJsdelivrUrl n v
    · rw [resolveFailure_terminal n v s h]; exact hq
    · rw [resolveFailure_retry n v s h]; exact hq
  | setUrl u => exact hq

theorem step_frozen (e : Event) (s : LoaderState)
    (hns : ∀ hdl, e ≠ Event.success hdl) (hr : s.runtime = none) :
    (step e s).runtime = none ∧ (step e s).trace = s.trace := by
  cases e with
  | get cb =>
    rw [step_get]
    cases hL : s.isLoading with
    | false => rw [getInstanceM_idle_none s cb hL hr]; exact ⟨hr, rfl⟩
    | true => rw [getInstanceM_loading_none s cb hL hr]; exact ⟨hr, rfl⟩
  | success hdl => exact absurd rfl (hns hdl)
  | failure n v =>
    rw [show step (Event.failure n v) s = resolveFailure n v s from rfl]
    by_cases h : lowerCase s.wasmURL = backupJsdelivrUrl n v
    · rw [resolveFailure_terminal n v s h]; exact ⟨hr, rfl⟩
    · rw [resolveFailure_retry n v s h]; exact ⟨hr, rfl⟩
  | setUrl u => exact ⟨hr, rfl⟩

theorem step_value (P : Nat → Prop) (e : Event) (s : LoaderState)
    (hl : s.isLoading = true)
    (hT : ∀ pr ∈ s.trace, P pr.2)
    (hR : ∀ r, s.runtime = some r → P r)
    (hE : ∀ hdl, e = Event.success hdl → P hdl) :
    (∀ pr ∈ (step e s).trace, P pr.2) ∧ (∀ r, (step e s).runtime = some r → P r) := by
  cases e with
  | get cb =>
    rw [step_get]
    cases hr : s.runtime with
    | none =>
      rw [getInstanceM_loading_none s cb hl hr]
      exact ⟨hT, hR⟩
    | some r0 =>
      rw [getInstanceM_ready s cb r0 hr hl]
      refine ⟨?_, hR⟩
      intro pr hpr
      rcases List.mem_append.mp hpr with h1 | h2
      · exact hT pr h1
      · rw [cbTrace_snd r0 cb pr h2]; exact hR r0 hr
  | success hdl =>
    rw [show step (Event.success hdl) s = resolveSuccess hdl s from rfl]
    rw [resolveSuccess_char hdl s hl]
    have hP : P hdl := hE hdl rfl
    constructor
    · intro pr hpr
      rcases List.mem_append.mp hpr with h1 | h2
      · exact hT pr h1
      · rw [cbTraceList_snd hdl s.callBackQueue pr h2]; exact hP
    · intro r h
      exact (Option.some.inj h) ▸ hP
  | failure n v =>
    rw [show step (Event.failure n v) s = resolveFailure n v s from rfl]
    by_cases h : lowerCase s.wasmURL = backupJsdelivrUrl n v
    · rw [resolveFailure_terminal n v s h]; exact ⟨hT, hR⟩
    · rw [resolveFailure_retry n v s h]; exact ⟨hT, hR⟩
  | setUrl u => exact ⟨hT, hR⟩



theorem run_isLoading (evs : List Event) : ∀ (s : LoaderState),
    s.isLoading = true → (run evs s).isLoading = true := by
  induction evs with
  | nil => intro s hl; exact hl
  | cons e rest ih =>
    intro s hl
    rw [run_cons]
    exact ih (step e s) (step_isLoading e s hl)

theorem run_sum (p : Nat) (evs : List Event) : ∀ (s : LoaderState),
    (∀ e ∈ evs, pidFree p e = true) → s.isLoading = true →
    traceCount p (run evs s) + queuedCount p (run evs s) =
      traceCount p s + queuedCount p s := by
  induction evs with
  | nil => intro s _ _; rfl
  | cons e rest ih =>
    intro s hfree hl
    rw [run_cons]
    rw [ih (step e s) (fun x hx => hfree x (List.mem_cons_of_mem e hx))
        (step_isLoading e s hl)]
    exact step_sum p e s (hfree e (List.mem_cons_self e rest)) hl

theorem run_queued_zero (p : Nat) (evs : List Event) : ∀ (s : LoaderState),
    (∀ e ∈ evs, pidFree p e = true) → s.isLoading = true →
    queuedCount p s = 0 → queuedCount p (run evs s) = 0 := by
  induction evs with
  | nil => intro s _ _ hq; exact hq
  | cons e rest ih =>
    intro s hfree hl hq
    rw [run_cons]
    exact ih (step e s) (fun x hx => hfree x (List.mem_cons_of_mem e hx))
      (step_isLoading e s hl)
      (step_queued_zero p e s (hfree e (List.mem_cons_self e rest)) hl hq)

theorem run_frozen (evs : List Event) : ∀ (s : LoaderState),
    (∀ e ∈ evs, ∀ hdl, e ≠ Event.success hdl) → s.runtime = none →
    (run evs s).runtime = none ∧ (run evs s).trace = s.trace := by
  induction evs with
  | nil => intro s _ hr; exact ⟨hr, rfl⟩
  | cons e rest ih =>
    intro s hns hr
    rw [run_cons]
    have h1 := step_frozen e s (hns e (List.mem_cons_self e rest)) hr
    have h2 := ih (step e s) (fun x hx => hns x (List.mem_cons_of_mem e hx)) h1.1
    exact ⟨h2.1, h2.2.trans h1.2⟩

theorem run_value (P : Nat → Prop) (evs : List Event) : ∀ (s : LoaderState),
    s.isLoading = true →
    (∀ pr ∈ s.trace, P pr.2) →
    (∀ r, s.runtime = some r → P r) →
    (∀ e ∈ evs, ∀ hdl, e = Event.success hdl → P hdl) →
    ∀ pr ∈ (run evs s).trace, P pr.2 := by
  induction evs with
  | nil => intro s _ hT _ _; exact hT
  | cons e rest ih =>
    intro s hl hT hR hE
    rw [run_cons]
    have h1 := step_value P e s hl hT hR (hE e (List.mem_cons_self e rest))
    exact ih (step e s) (step_isLoading e s hl) h1.1 h1.2
      (fun x hx => hE x (List.mem_cons_of_mem e hx))

theorem run_exact (p : Nat) (evs : List Event) : ∀ (s : LoaderState),
    (∀ e ∈ evs, pidFree p e = true) → s.isLoading = true →
    traceCount p s + queuedCount p s = 1 →
    (∃ hdl, Event.success hdl ∈ evs) →
    traceCount p (run evs s) = 1 := by
  induction evs with
  | nil => intro s _ _ _ hex; rcases hex with ⟨hdl, hmem⟩; cases hmem
  | cons e rest ih =>
    intro s hfree hl hsum hex
    have hfreeRest : ∀ x ∈ rest, pidFree p x = true :=
      fun x hx => hfree x (List.mem_cons_of_mem e hx)
    have hlStep : (step e s).isLoading = true := step_isLoading e s hl
    have hsumStep : traceCount p (step e s) + queuedCount p (step e s) = 1 :=
      (step_sum p e s (hfree e (List.mem_cons_self e rest)) hl).trans hsum
    rcases hex with ⟨hdl, hmem⟩
    rcases List.mem_cons.mp hmem with heq | hmemRest
    · subst heq
      have hqz : queuedCount p (step (Event.success hdl) s) = 0 := by
        rw [show step (Event.success hdl) s = resolveSuccess hdl s from rfl]
        rw [resolveSuccess_char hdl s hl]
        rfl
      rw [run_cons]
      have hq0 := run_queued_zero p rest (step (Event.success hdl) s) hfreeRest hlStep hqz
      have hs := run_sum p rest (step (Event.success hdl) s) hfreeRest hlStep
      omega
    · rw [run_cons]
      exact ih (step e s) hfreeRest hlStep hsumStep ⟨hdl, hmemRest⟩



/-- Claim C8 (`awaitInstance` promise): the promise resolves at most once;
it resolves exactly once — with the handle delivered by a load success —
precisely when the callback it registers through `getInstance` is invoked;
and if no load ever succeeds (terminal failure), it never settles.  The
executor contains no rejection path: resolutions are the only settlements
represented. -/
theorem await_instance_spec (p : Nat) (s0 : LoaderState) (evs : List Event)
    (h0l : s0.isLoading = false) (h0r : s0.runtime = none)
    (h0t : s0.trace = []) (h0q : s0.callBackQueue = [])
    (hfree : ∀ e ∈ evs, pidFree p e = true) :
    (promiseResolutions p (run evs (awaitInstance p s0))).length ≤ 1 ∧
    ((∀ hdl, Event.success hdl ∉ evs) →
      promiseResolutions p (run evs (awaitInstance p s0)) = []) ∧
    ((∃ hdl, Event.success hdl ∈ evs) →
      (promiseResolutions p (run evs (awaitInstance p s0))).length = 1) ∧
    (∀ v ∈ promiseResolutions p (run evs (awaitInstance p s0)),
      Event.success v ∈ evs) := by
  have hs1 : awaitInstance p s0 =
      { s0 with isLoading := true, initCalls := s0.initCalls ++ [s0.wasmURL],
                callBackQueue := s0.callBackQueue ++ [Cb.mk p []] } :=
    getInstanceM_idle_none s0 (Cb.mk p []) h0l h0r
  rw [hs1]
  set s1 : LoaderState :=
    { s0 with isLoading := true, initCalls := s0.initCalls ++ [s0.wasmURL],
              callBackQueue := s0.callBackQueue ++ [Cb.mk p []] } with hs1def
  have hl1 : s1.isLoading = true := rfl
  have hr1 : s1.runtime = none := h0r
  have ht1 : s1.trace = [] := h0t
  have hsum1 : traceCount p s1 + queuedCount p s1 = 1 := by
    show entryCount p s0.trace + cbCountList p (s0.callBackQueue ++ [Cb.mk p []]) = 1
    rw [h0t, h0q]
    simp [entryCount, cbCountList, cbCount]
  refine ⟨?_, ?_, ?_, ?_⟩
  · rw [promiseResolutions_length]
    have := run_sum p evs s1 hfree hl1
    omega
  · intro hns
    have hfr := run_frozen evs s1
      (fun e he hdl heq => absurd (heq ▸ he) (hns hdl)) hr1
    exact promiseResolutions_of_trace_nil p _ (hfr.2.trans ht1)
  · intro hex
    rw [promiseResolutions_length]
    exact run_exact p evs s1 hfree hl1 hsum1 hex
  · intro v hv
    rcases promiseResolutions_mem p _ v hv with ⟨pr, hpr, hv2⟩
    have := run_value (fun x => Event.success x ∈ evs) evs s1 hl1
      (by rw [ht1]; intro pr h; cases h)
      (fun r h => by rw [hr1] at h; cases h)
      (fun e he hdl heq => by rw [heq] at he; exact he)
      pr hpr
    exact hv2 ▸ this

theorem await_instance_spec_witness :
    (promiseResolutions 5 (run [Event.failure "rive" "1.0.0", Event.success 7]
      (awaitInstance 5 (initialState "rive" "1.0.0")))).length = 1 :=
  (await_instance_spec 5 (initialState "rive" "1.0.0")
      [Event.failure "rive" "1.0.0", Event.success 7]
      rfl rfl rfl rfl (by decide)).2.2.1
    ⟨7, List.mem_cons_of_mem _ (List.mem_cons_self _ _)⟩

end RuntimeLoader
